import Mathlib

/-!
Verification of the METS → SIP transcoder (`da_pipeline/mets_parser.py`) against
its natural-language specification.  The XML documents handled by the parser are
embedded as a mutual inductive tree (element / child-list), and every parsing
function of the source module is translated into an executable Lean definition.
Machine-generated values (UUIDs from `uuid4()`, clock readings from
`datetime.now`) are supplied by an explicit `Env`; the `logger.warning` side
channel is returned as a list of warning strings where the claims refer to it;
Python exceptions are modelled with `Except`.  All string operations are
re-implemented over character lists so that every definition reduces in the
kernel.
-/

/-! ## Python string primitives -/

/-- `str.strip()` with no argument: drop leading and trailing whitespace. -/
def pyStrip (s : String) : String :=
  ⟨((s.data.dropWhile Char.isWhitespace).reverse.dropWhile Char.isWhitespace).reverse⟩

/-- `str.lower()` (ASCII, which is all the parser ever feeds it). -/
def pyLower (s : String) : String := ⟨s.data.map Char.toLower⟩

/-- `str.upper()` (ASCII, which is all the parser ever feeds it). -/
def pyUpper (s : String) : String := ⟨s.data.map Char.toUpper⟩

/-- Fuel-driven worker for `str.replace`: replace non-overlapping occurrences
of `pat` left to right.  The fuel is the length of the scanned list, which
bounds the recursion; the parser only ever replaces the non-empty pattern
`"SIP-"`. -/
def pyReplaceAux (pat rep : List Char) : Nat → List Char → List Char
  | _, [] => []
  | 0, l => l
  | fuel + 1, c :: rest =>
    if pat.isPrefixOf (c :: rest) then
      rep ++ pyReplaceAux pat rep fuel ((c :: rest).drop pat.length)
    else
      c :: pyReplaceAux pat rep fuel rest

/-- `str.replace(pat, rep)`: all non-overlapping occurrences, left to right
(identity on an empty pattern, which the parser never uses). -/
def pyReplace (s pat rep : String) : String :=
  if pat.data = [] then s
  else ⟨pyReplaceAux pat.data rep.data s.data.length s.data⟩

/-- Worker for `str.split()` (no argument): split on whitespace runs,
discarding empty pieces; `acc` holds the current word reversed. -/
def pySplitAux : List Char → List Char → List String
  | [], acc => if acc = [] then [] else [⟨acc.reverse⟩]
  | c :: rest, acc =>
    if c.isWhitespace then
      if acc = [] then pySplitAux rest []
      else (⟨acc.reverse⟩ : String) :: pySplitAux rest []
    else pySplitAux rest (c :: acc)

/-- `str.split()` with no argument. -/
def pySplit (s : String) : List String := pySplitAux s.data []

/-- `int(s)` for a string argument: optional surrounding whitespace, optional
sign, then decimal digits; anything else raises `ValueError`, modelled as
`none`.  (Python also accepts `_` digit separators; the parser's inputs are
plain digit strings, so separators are not modelled.) -/
def pyInt (s : String) : Option Int :=
  let t := (pyStrip s).data
  let neg := t.head? = some '-'
  let core := if t.head? = some '-' ∨ t.head? = some '+' then t.drop 1 else t
  if core ≠ [] ∧ core.all Char.isDigit then
    let n : Nat := core.foldl (fun acc c => acc * 10 + (c.toNat - 48)) 0
    some (if neg then -(n : Int) else (n : Int))
  else none

/-! ## XML element trees (`xml.etree.ElementTree`) -/

mutual
/-- An XML element as exposed by `ElementTree`: namespace-qualified tag,
attributes, optional text, child elements.  The children are a mutual
inductive list so that recursion over the tree is structural and
kernel-reducible. -/
inductive Element : Type where
  | mk (tag : String) (attrs : List (String × String)) (txt : Option String)
       (children : ElementKids)
/-- Child list of an `Element`. -/
inductive ElementKids : Type where
  | nil : ElementKids
  | cons (hd : Element) (tl : ElementKids) : ElementKids
end

def Element.tag : Element → String
  | .mk t _ _ _ => t

def Element.attrs : Element → List (String × String)
  | .mk _ a _ _ => a

def Element.txt : Element → Option String
  | .mk _ _ t _ => t

def Element.kids : Element → ElementKids
  | .mk _ _ _ c => c

def ElementKids.toList : ElementKids → List Element
  | .nil => []
  | .cons h t => h :: t.toList

/-- Build an `ElementKids` from a list literal (used for concrete documents). -/
def listToKids : List Element → ElementKids
  | [] => .nil
  | h :: t => .cons h (listToKids t)

mutual
/-- All strict descendants of an element, in document (pre-)order: the node
set scanned by an ElementTree `.//` search. -/
def Element.descendants : Element → List Element
  | .mk _ _ _ cs => ElementKids.descList cs
/-- Descendants-with-self of each element of a child list, concatenated in
document order. -/
def ElementKids.descList : ElementKids → List Element
  | .nil => []
  | .cons c rest => c :: (Element.descendants c ++ ElementKids.descList rest)
end

/-- `element.get(key)`: the attribute value, or `None`. -/
def Element.getAttr (e : Element) (k : String) : Option String :=
  (e.attrs.find? (fun p => p.1 == k)).map (·.2)

def Element.childList (e : Element) : List Element :=
  e.kids.toList

/-- `element.find('ns:tag')`: first direct child with the tag. -/
def Element.findChild (e : Element) (t : String) : Option Element :=
  (e.childList.filter (fun c => c.tag == t)).head?

/-- `element.findall('ns:tag')`: all direct children with the tag. -/
def Element.findAllChildren (e : Element) (t : String) : List Element :=
  e.childList.filter (fun c => c.tag == t)

/-- `element.find('.//ns:tag')`: first descendant with the tag. -/
def Element.findDesc (e : Element) (t : String) : Option Element :=
  (e.descendants.filter (fun c => c.tag == t)).head?

/-- `element.findall('.//ns:tag')`: all descendants with the tag. -/
def Element.findAllDesc (e : Element) (t : String) : List Element :=
  e.descendants.filter (fun c => c.tag == t)

/-- `element.find('.//ns:tag[@k="v"]')`: first descendant with the tag whose
attribute `k` equals `v`. -/
def Element.findDescAttr (e : Element) (t k v : String) : Option Element :=
  (e.descendants.filter (fun c => c.tag == t && c.getAttr k == some v)).head?

/-- `element.findall('.//ns:tag[@k="v"]')`. -/
def Element.findAllDescAttr (e : Element) (t k v : String) : List Element :=
  e.descendants.filter (fun c => c.tag == t && c.getAttr k == some v)

/-! ## Python dict with string keys

The parser's metadata maps are built by repeated `result[key] = value`
assignment and `{**a, **b}` merges.  They are modelled as association lists in
insertion order, with lookup returning the **last** binding (the dict
overwrite semantics). -/

def dictGet {α : Type} (m : List (String × α)) (k : String) : Option α :=
  (m.reverse.find? (fun p => p.1 == k)).map (·.2)

/-- `dict.get(key, default)`. -/
def dictGetD {α : Type} (m : List (String × α)) (k : String) (d : α) : α :=
  (dictGet m k).getD d

/-! ## The data model (`da_pipeline/pydantic_models.py`) -/

/-- `FixityType`: closed enumeration of supported checksum algorithms. -/
inductive FixityType : Type where
  | MD5 | SHA1 | SHA256 | SHA512
  deriving DecidableEq, Repr

/-- The enum-by-value constructor `FixityType(s)`: succeeds exactly on the
four declared values, otherwise raises `ValueError` (modelled as `none`). -/
def FixityType.ofValue : String → Option FixityType
  | "MD5" => some .MD5
  | "SHA-1" => some .SHA1
  | "SHA-256" => some .SHA256
  | "SHA-512" => some .SHA512
  | _ => none

/-- `FixityModel`: frozen checksum record. -/
structure FixityModel : Type where
  fixity_type : FixityType
  fixity_value : String
  file_id : String
  deriving DecidableEq, Repr

/-- `FileModel`: one preserved file with technical metadata. -/
structure FileModel : Type where
  file_id : String
  label : String
  mime_type : String
  original_name : String
  original_path : Option String
  size_bytes : Int
  fixities : List FixityModel
  dmd_ids : List String
  adm_ids : List String
  deriving DecidableEq, Repr

/-- `RepresentationType`: closed enumeration of representation usages. -/
inductive RepresentationType : Type where
  | preservation | access | original
  deriving DecidableEq, Repr

/-- The enum-by-value constructor `RepresentationType(s)`. -/
def RepresentationType.ofValue : String → Option RepresentationType
  | "preservation" => some .preservation
  | "access" => some .access
  | "original" => some .original
  | _ => none

/-- `RepresentationModel`: a group of files; timestamps are modelled as the
`Nat` clock readings delivered by the environment. -/
structure RepresentationModel : Type where
  rep_id : String
  label : Option String
  usage_type : RepresentationType
  files : List FileModel
  creation_date : Option Nat
  deriving DecidableEq, Repr

/-- `DublinCore`: the five descriptive-metadata fields of the model, each an
ordered list of strings defaulting to empty. -/
structure DublinCore : Type where
  title : List String := []
  creator : List String := []
  type : List String := []
  identifier : List String := []
  rights : List String := []
  deriving DecidableEq, Repr

/-- `IEModel`: one Intellectual Entity. -/
structure IEModel : Type where
  ie_id : String
  dc : DublinCore
  ie_entity_type : String
  representations : List RepresentationModel
  deriving DecidableEq, Repr

/-- `SIPModel`: the top-level Submission Information Package. -/
structure SIPModel : Type where
  sip_id : String
  intellectual_entities : List IEModel
  creation_date : Option Nat
  submitting_agent : String
  deriving DecidableEq, Repr

/-- Python exceptions reaching the model's control flow: the `AttributeError`
raised by `None.lower()` and the module's own `METSParsingError`.  Message
texts follow the source but are abbreviated where CPython would insert quote
characters; no claim depends on the exact interpreter wording. -/
inductive PyErr : Type where
  | attributeError (msg : String)
  | metsParsingError (msg : String)
  deriving DecidableEq, Repr

def PyErr.msg : PyErr → String
  | .attributeError m => m
  | .metsParsingError m => m

/-- The ambient machine state a parse run draws on: the current clock
(`datetime.now(timezone.utc)`, one value per run) and the stream of fresh
UUIDs (`uuid4()`, indexed by how many have been drawn so far). -/
structure Env : Type where
  now : Nat
  uuid : Nat → String

/-! ## Parsing functions (`da_pipeline/mets_parser.py`) -/

/-- `safe_get_text` (lines 107-118): `element.text` is truthy iff it is a
non-`None`, non-empty string; then the stripped text is returned, otherwise
`None`.  A whitespace-only text is truthy and strips to `""`. -/
def safe_get_text : Option Element → Option String
  | none => none
  | some e =>
    match e.txt with
    | none => none
    | some t => if t = "" then none else some (pyStrip t)

/-- The `if text:` truthiness test of line 150: the safe text of an element
when it is neither absent nor empty. -/
def truthyText (e : Element) : Option String :=
  match safe_get_text (some e) with
  | none => none
  | some t => if t = "" then none else some t

/-- The texts collected for one Dublin Core field name (lines 147-158): every
`dc:<field>` direct child of the record whose `safe_get_text` is truthy, in
document order.  (The `date` field is additionally run through a datetime
parse, but the collected date list is discarded by the `DublinCore(...)`
construction at lines 160-164, so it never reaches the output.) -/
def dcCollect (dc_record : Element) (field : String) : List String :=
  (dc_record.findAllChildren ("dc:" ++ field)).filterMap truthyText

/-- The `mdWrap → xmlData → dc:record` navigation of lines 142-144. -/
def dcRecordOf (dmd_sec : Element) : Option Element :=
  match dmd_sec.findChild "mets:mdWrap" with
  | none => none
  | some md_wrap =>
    match md_wrap.findChild "mets:xmlData" with
    | none => none
    | some xml_data => xml_data.findChild "dc:record"

/-- `parse_dc_metadata` (lines 121-168).  All fifteen field lists are
collected into `dc_fields`, but the returned model is built from **only**
`title`, `creator` and `rights` (lines 160-164); its `type` and `identifier`
fields are the model defaults `[]`.  The `except` fallback to an empty record
is unreachable in the model because every step is total. -/
def parse_dc_metadata (dmd_sec : Element) : DublinCore :=
  match dcRecordOf dmd_sec with
  | none => {}
  | some dc_record =>
    { title := dcCollect dc_record "title"
      creator := dcCollect dc_record "creator"
      rights := dcCollect dc_record "rights" }

/-- The `mdWrap → xmlData → dnx → section` navigation of `parse_dnx_section`
(lines 189-205): locate a `dnx` `mdWrap` under the given element and the
named `dnx:section` inside it. -/
def dnxSectionOf (element : Element) (section_id : String) : Option Element :=
  match element.findDesc "mets:mdWrap" with
  | none => none
  | some md_wrap =>
    if md_wrap.getAttr "OTHERMDTYPE" == some "dnx" then
      match md_wrap.findDesc "mets:xmlData" with
      | none => none
      | some xml_data =>
        match xml_data.findDesc "dnx:dnx" with
        | none => none
        | some dnx_elem => dnx_elem.findDescAttr "dnx:section" "id" section_id
    else none

/-- The key/value pairs of one `dnx:record` (lines 210-215): every descendant
`dnx:key` with a truthy `id` attribute, paired with its text (`""` when the
safe text is absent). -/
def dnxRecordKeys (record : Element) : List (String × String) :=
  (record.findAllDesc "dnx:key").filterMap fun key_elem =>
    match key_elem.getAttr "id" with
    | none => none
    | some key_id =>
      if key_id = "" then none
      else some (key_id, (safe_get_text (some key_elem)).getD "")

/-- `parse_dnx_section` (lines 171-220): flatten every `dnx:key` of every
`dnx:record` of the named section into `result[key_id] = value` assignments
(in insertion order; `dictGet` applies the dict overwrite semantics, so a
later record's keys shadow an earlier record's). -/
def parse_dnx_section (element : Element) (section_id : String) : List (String × String) :=
  match dnxSectionOf element section_id with
  | none => []
  | some sec => (sec.findAllDesc "dnx:record").flatMap dnxRecordKeys

/-- The flat `fileFixity` map seen by `parse_file_element` (lines 270-276):
re-locate the `amdSec` referenced by the file's `ADMID` in the document, take
its first `techMD` descendant and flatten its `fileFixity` DNX section
(empty whenever any step fails, in which case the fixity block is skipped). -/
def fileFixityMapOf (root_el : Option Element) (file_admid : String) : List (String × String) :=
  match root_el with
  | none => []
  | some root =>
    if file_admid = "" then []
    else
      match root.findDescAttr "mets:amdSec" "ID" file_admid with
      | none => []
      | some amd_sec =>
        match amd_sec.findDesc "mets:techMD" with
        | none => []
        | some tech_md => parse_dnx_section tech_md "fileFixity"

/-- The candidate fixity record of `parse_file_element` (lines 276-288): read
the single merged `fixityType`/`fixityValue` pair of the flat `fileFixity`
map.  Returns the record data (if any) and the recorded warnings; the
`except (ValueError, AttributeError)` warning fires exactly when the merged
algorithm is not a `FixityType` value. -/
def fixityCandidate (root_el : Option Element) (file_admid : String) (file_id : String) :
    Option (FixityType × String) × List String :=
  let ffs := fileFixityMapOf root_el file_admid
  if ffs = [] then (none, [])
  else
    match FixityType.ofValue (pyUpper (dictGetD ffs "fixityType" "")) with
    | none => (none, ["Invalid fixity data for file " ++ file_id])
    | some ft =>
      match dictGet ffs "fixityValue" with
      | none => (none, [])
      | some v => if v = "" then (none, []) else (some (ft, v), [])

/-- `int(file_data.get('fileSize', 0))` under its `except` clause
(lines 249-254): the declared size as an integer, with the 0-with-warning
fallback for a non-numeric string (an absent key yields `int(0)` silently). -/
def sizeParseOf (file_data : List (String × String)) (file_id : String) : Int × List String :=
  match dictGet file_data "fileSize" with
  | none => (0, ([] : List String))
  | some s =>
    match pyInt s with
    | some n => (n, [])
    | none => (0, ["Invalid file size value for file " ++ file_id ++ ", using 0"])

/-- `parse_file_element` (lines 223-299).  Returns the file model, the next
`uuid4` counter, and the recorded warnings.  `str(uuid4())` is evaluated
eagerly as the default of `file_el.get('ID', ...)`, so the counter always
advances; the value is only used when the `ID` attribute is absent.  The
`ValidationError` / generic `except` re-raises are unreachable in the model
because every step is total. -/
def parse_file_element (env : Env) (ctr : Nat) (file_el : Element)
    (amd_map : List (String × List (String × String))) (root_el : Option Element) :
    FileModel × Nat × List String :=
  let file_id := (file_el.getAttr "ID").getD (env.uuid ctr)
  let file_dmdid := (file_el.getAttr "DMDID").getD ""
  let file_admid := (file_el.getAttr "ADMID").getD ""
  let file_data := (dictGet amd_map file_admid).getD []
  let label := dictGetD file_data "label" file_id
  let mime_type := dictGetD file_data "fileMIMEType" "application/octet-stream"
  let original_name := dictGetD file_data "fileOriginalName" file_id
  let sizeParse := sizeParseOf file_data file_id
  let fixres := fixityCandidate root_el file_admid file_id
  let fixities :=
    match fixres.1 with
    | some (ft, v) => [FixityModel.mk ft v file_id]
    | none => []
  ({ file_id := file_id
     label := label
     mime_type := mime_type
     original_name := original_name
     original_path := dictGet file_data "fileOriginalPath"
     size_bytes := sizeParse.1
     fixities := fixities
     dmd_ids := pySplit file_dmdid
     adm_ids := pySplit file_admid },
   ctr + 1,
   sizeParse.2 ++ fixres.2)

/-- `extract_sip_metadata` (lines 304-323); `stem` is `Path(xml_path).stem`. -/
def extract_sip_metadata (root : Element) (stem : String) : String × String :=
  let sip_id := (root.getAttr "OBJID").getD ("SIP-" ++ stem)
  let submitting_agent :=
    match root.findChild "mets:metsHdr" with
    | none => "Unknown"
    | some header =>
      match header.findDescAttr "mets:agent" "ROLE" "CREATOR" with
      | none => "Unknown"
      | some agent =>
        match safe_get_text (agent.findDesc "mets:name") with
        | none => "Unknown"
        | some s => if s = "" then "Unknown" else s
  (sip_id, submitting_agent)

/-- `parse_metadata_sections` (lines 326-355): the two ID-keyed maps.  A
section whose `ID` attribute is absent or empty (falsy) is skipped; an
`amdSec` without a direct `techMD` child contributes no entry. -/
def parse_metadata_sections (root : Element) :
    List (String × DublinCore) × List (String × List (String × String)) :=
  let dmd_map := (root.findAllChildren "mets:dmdSec").filterMap fun dmd_sec =>
    match dmd_sec.getAttr "ID" with
    | none => none
    | some dmd_id =>
      if dmd_id = "" then none else some (dmd_id, parse_dc_metadata dmd_sec)
  let amd_map := (root.findAllChildren "mets:amdSec").filterMap fun amd_sec =>
    match amd_sec.getAttr "ID" with
    | none => none
    | some amd_id =>
      if amd_id = "" then none
      else
        match amd_sec.findChild "mets:techMD" with
        | none => none
        | some tech_md =>
          some (amd_id,
            parse_dnx_section tech_md "generalFileCharacteristics"
              ++ parse_dnx_section tech_md "fileFixity")
  (dmd_map, amd_map)

/-- The `tech_md` loop of `process_file_sections` (lines 377-381): scan every
`amdSec` whose `ID` equals the group's `ADMID` and keep the first `techMD`
descendant found (`None` when no match has one). -/
def firstTechMd (root : Element) (admid : String) : Option Element :=
  ((root.findAllDescAttr "mets:amdSec" "ID" admid).filterMap
    (fun amd_sec => amd_sec.findDesc "mets:techMD")).head?

/-- The per-`mets:file` loop body of `process_file_sections` (lines 420-426),
in document order.  The `except METSParsingError: continue` branch is
unreachable in the model because the embedded `parse_file_element` is total,
so every child file element yields a file model. -/
def parseFiles (env : Env) (amd_map : List (String × List (String × String)))
    (root : Element) : List Element → Nat → List FileModel × Nat × List String
  | [], ctr => ([], ctr, [])
  | fe :: rest, ctr =>
    let r := parse_file_element env ctr fe amd_map (some root)
    let rs := parseFiles env amd_map root rest r.2.1
    (r.1 :: rs.1, rs.2.1, r.2.2 ++ rs.2.2)

/-- The `rep_data` dict of `process_file_sections` (lines 383-389): `None`
when no referenced administrative section yields technical metadata, else the
two-key dict `{'label': ..., 'usageType': ...}` whose values may themselves be
`None` (absent DNX keys). -/
def repDataOf (root : Element) (admid : String) : Option (List (String × Option String)) :=
  match firstTechMd root admid with
  | none => none
  | some tech_md =>
    let rep_chars := parse_dnx_section tech_md "generalRepCharacteristics"
    some [("label", dictGet rep_chars "label"), ("usageType", dictGet rep_chars "usageType")]

/-- `rep_data.get('usageType', '').lower()` (line 392).  The default `''` is
only delivered when the *key* is absent; when `rep_data` was built (technical
metadata found) the key is always present, possibly bound to `None`, and
`.lower()` on `None` raises `AttributeError`. -/
def usageStrOf (root : Element) (admid : String) : Except PyErr String :=
  match repDataOf root admid with
  | none => .ok ""                    -- {}.get('usageType', '') = ''
  | some m =>
    match dictGet m "usageType" with
    | none => .ok ""                  -- key absent: default '' (not constructed here)
    | some none => .error (.attributeError "NoneType object has no attribute lower")
    | some (some s) => .ok (pyLower s)

/-- `rep_data.get('label')` flattened (line 401): `None` either when
`rep_data` is empty or when the key is bound to `None`. -/
def labelOptOf (root : Element) (admid : String) : Option String :=
  match repDataOf root admid with
  | none => none
  | some m => (dictGet m "label").getD none

/-- The per-`mets:fileGrp` body of `process_file_sections` (lines 372-432).
Returns the kept representation (`none` when the group is dropped for having
no files), the next uuid counter, and the warnings. -/
def processGroup (env : Env) (root : Element)
    (amd_map : List (String × List (String × String))) (ctr : Nat)
    (file_grp : Element) : Except PyErr (Option RepresentationModel × Nat × List String) :=
  let rep_id := (file_grp.getAttr "ID").getD "rep-unknown"
  let admid := (file_grp.getAttr "ADMID").getD ""
  match usageStrOf root admid with
  | .error e => .error e
  | .ok usage_type_str =>
    let usageParse :=
      match RepresentationType.ofValue usage_type_str with
      | some u => (u, ([] : List String))
      | none =>
        (RepresentationType.access,
         ["Invalid usage type for representation " ++ rep_id ++ ", defaulting to access"])
    let label :=
      match labelOptOf root admid with
      | none => "Representation " ++ rep_id
      | some l => if l = "" then "Representation " ++ rep_id else l
    -- rep_data only ever carries the label and usageType keys (lines 386-389),
    -- so rep_data.get('creationDate') is always None and the creation date is
    -- always the current clock (lines 404-410), modelled as env.now.
    let creation_date : Option Nat := some env.now
    let fres := parseFiles env amd_map root (file_grp.findAllChildren "mets:file") ctr
    let rep_model : RepresentationModel :=
      { rep_id := rep_id, label := some label, usage_type := usageParse.1
        files := fres.1, creation_date := creation_date }
    if rep_model.files = [] then
      .ok (none, fres.2.1,
        usageParse.2 ++ fres.2.2
          ++ ["Skipping representation " ++ rep_id ++ " as it contains no valid files"])
    else
      .ok (some rep_model, fres.2.1, usageParse.2 ++ fres.2.2)

/-- The fold of `processGroup` over the file groups, in document order; an
exception in any group aborts the whole loop. -/
def groupsGo (env : Env) (root : Element)
    (amd_map : List (String × List (String × String))) :
    List Element → Nat → Except PyErr (List RepresentationModel × Nat × List String)
  | [], ctr => .ok ([], ctr, [])
  | g :: gs, ctr =>
    match processGroup env root amd_map ctr g with
    | .error e => .error e
    | .ok (orep, ctr', ws) =>
      match groupsGo env root amd_map gs ctr' with
      | .error e => .error e
      | .ok (rest, ctr'', ws') =>
        .ok ((match orep with | some r => r :: rest | none => rest), ctr'', ws ++ ws')

/-- `process_file_sections` (lines 358-434). -/
def process_file_sections (env : Env) (root : Element)
    (amd_map : List (String × List (String × String))) (ctr : Nat) :
    Except PyErr (List RepresentationModel × Nat × List String) :=
  match root.findChild "mets:fileSec" with
  | none => .ok ([], ctr, [])
  | some file_sec => groupsGo env root amd_map (file_sec.findAllChildren "mets:fileGrp") ctr

/-- `build_ie_model` (lines 437-488).  Note that the success branch builds the
entity's `DublinCore` from `title`, `identifier`, `creator` and `rights` only
(lines 475-480): its `type` field is the default `[]`. -/
def build_ie_model (sip_id : String) (dmd_map : List (String × DublinCore))
    (amd_map : List (String × List (String × String)))
    (representations : List RepresentationModel) : Except PyErr IEModel :=
  match dictGet dmd_map "ie-dmd" with
  | none => .error (.metsParsingError "Missing required ie-dmd section")
  | some ie_dmd_data =>
    if ie_dmd_data.title = [] ∧ ie_dmd_data.identifier = [] ∧ ie_dmd_data.type = [] then
      .error (.metsParsingError "Missing required Dublin Core metadata")
    else
      let ie_id_str := pyReplace sip_id "SIP-" "IE-"
      let ie_amd_data := (dictGet amd_map "ie-amd").getD []
      let ie_entity_type :=
        if ie_amd_data ≠ [] then
          match dictGet ie_amd_data "IEEntityType" with
          | some v => v
          | none => "unknown"
        else "unknown"
      let dc_model : DublinCore :=
        { title := if ie_dmd_data.title = [] then ["Untitled"] else ie_dmd_data.title
          identifier := if ie_dmd_data.identifier = [] then [ie_id_str] else ie_dmd_data.identifier
          creator := ie_dmd_data.creator
          rights := ie_dmd_data.rights }
      .ok { ie_id := ie_id_str, dc := dc_model, ie_entity_type := ie_entity_type
            representations := representations }

/-- `parse_mets_to_sip` (lines 491-541), starting from the already-parsed XML
tree (the claims under verification concern the stages after the byte read;
`stem` stands for `Path(xml_path).stem`).  Every exception escaping an inner
stage is caught by the `except Exception` boundary at lines 539-541 and
re-reported as a `METSParsingError` carrying the cause — including an inner
`METSParsingError`, which is re-wrapped with the same prefix. -/
def parse_mets_to_sip (root : Element) (stem : String) (env : Env) :
    Except PyErr (SIPModel × List String) :=
  let meta := extract_sip_metadata root stem
  let maps := parse_metadata_sections root
  match process_file_sections env root maps.2 0 with
  | .error e =>
    .error (.metsParsingError ("Failed to parse METS structure: " ++ e.msg))
  | .ok (representation_list, _, ws) =>
    match build_ie_model meta.1 maps.1 maps.2 representation_list with
    | .error e =>
      .error (.metsParsingError ("Failed to parse METS structure: " ++ e.msg))
    | .ok ie_model =>
      .ok ({ sip_id := meta.1, intellectual_entities := [ie_model]
             creation_date := some env.now, submitting_agent := meta.2 }, ws)

/-! ## Concrete documents and environments used by the claims -/

/-- Convenience constructor for concrete documents. -/
def el (t : String) (attrs : List (String × String)) (txt : Option String)
    (children : List Element) : Element :=
  .mk t attrs txt (listToKids children)

/-- A descriptive section with the given Dublin Core children. -/
def dmdSecWith (id : String) (dcKids : List Element) : Element :=
  el "mets:dmdSec" [("ID", id)] none
    [el "mets:mdWrap" [] none
      [el "mets:xmlData" [] none
        [el "dc:record" [] none dcKids]]]

/-- A `techMD` element wrapping one DNX section with the given records. -/
def techMdWith (sectionId : String) (records : List Element) : Element :=
  el "mets:techMD" [] none
    [el "mets:mdWrap" [("OTHERMDTYPE", "dnx")] none
      [el "mets:xmlData" [] none
        [el "dnx:dnx" [] none
          [el "dnx:section" [("id", sectionId)] none records]]]]

def dnxKey (id : String) (v : String) : Element :=
  el "dnx:key" [("id", id)] (some v) []

/-- The claim C2 scenario: OBJID `SIP-001`, one `ie-dmd` section titled
`Report`, one file group with one file whose referenced `amdSec` carries a
SHA-256 / `deadbeef` fixity entry. -/
def docC2 : Element :=
  el "mets:mets" [("OBJID", "SIP-001")] none
    [dmdSecWith "ie-dmd" [el "dc:title" [] (some "Report") []],
     el "mets:amdSec" [("ID", "file-amd-1")] none
       [techMdWith "fileFixity"
         [el "dnx:record" [] none
           [dnxKey "fixityType" "SHA-256", dnxKey "fixityValue" "deadbeef"]]],
     el "mets:fileSec" [] none
       [el "mets:fileGrp" [("ID", "rep-1")] none
         [el "mets:file" [("ID", "file-1"), ("ADMID", "file-amd-1")] none []]]]

/-- A well-formed document whose `ie-dmd` section declares a non-empty
`dc:identifier` and `dc:type` but no title (claim C1). -/
def docC1 : Element :=
  el "mets:mets" [("OBJID", "SIP-007")] none
    [dmdSecWith "ie-dmd"
      [el "dc:identifier" [] (some "ID-X") [], el "dc:type" [] (some "Text") []]]

/-- A descriptive section carrying one value in every claimed field
(claim C3). -/
def dmdSecC3 : Element :=
  dmdSecWith "ie-dmd"
    [el "dc:title" [] (some "T1") [],
     el "dc:type" [] (some "Text") [],
     el "dc:identifier" [] (some "ID-1") [],
     el "dc:creator" [] (some "C1") [],
     el "dc:rights" [] (some "R1") []]

/-- A document whose file references an administrative section carrying TWO
fixity entries, MD5/aaa then SHA-256/bbb (claim C4). -/
def docC4 : Element :=
  el "mets:mets" [("OBJID", "SIP-004")] none
    [dmdSecWith "ie-dmd" [el "dc:title" [] (some "R") []],
     el "mets:amdSec" [("ID", "fx-amd")] none
       [techMdWith "fileFixity"
         [el "dnx:record" [] none
           [dnxKey "fixityType" "MD5", dnxKey "fixityValue" "aaa"],
          el "dnx:record" [] none
           [dnxKey "fixityType" "SHA-256", dnxKey "fixityValue" "bbb"]]],
     el "mets:fileSec" [] none
       [el "mets:fileGrp" [("ID", "rep-1")] none
         [el "mets:file" [("ID", "f1"), ("ADMID", "fx-amd")] none []]]]

def fileElC4 : Element := el "mets:file" [("ID", "f1"), ("ADMID", "fx-amd")] none []

/-- A document whose file group's `ADMID` resolves to technical metadata whose
`generalRepCharacteristics` DNX section has a `label` key but no `usageType`
key (claim C5's failing input). -/
def docC5 : Element :=
  el "mets:mets" [("OBJID", "SIP-005")] none
    [dmdSecWith "ie-dmd" [el "dc:title" [] (some "R") []],
     el "mets:amdSec" [("ID", "rep-amd")] none
       [techMdWith "generalRepCharacteristics"
         [el "dnx:record" [] none [dnxKey "label" "L"]]],
     el "mets:fileSec" [] none
       [el "mets:fileGrp" [("ID", "rep-1"), ("ADMID", "rep-amd")] none
         [el "mets:file" [("ID", "f1")] none []]]]

/-- A well-formed document with one file that declares no `ID` attribute
(claim C8: its identifier is a fresh UUID on every run). -/
def docC8 : Element :=
  el "mets:mets" [("OBJID", "SIP-008")] none
    [dmdSecWith "ie-dmd" [el "dc:title" [] (some "R") []],
     el "mets:fileSec" [] none
       [el "mets:fileGrp" [("ID", "rep-1")] none
         [el "mets:file" [] none []]]]

def env0 : Env := ⟨0, fun _ => "uuid-0"⟩

def envA : Env := ⟨10, fun n => "uuidA-" ++ toString n⟩

def envB : Env := ⟨20, fun n => "uuidB-" ++ toString n⟩

/-- A placeholder representation (used only as the default of the concrete
projections below; never reached). -/
def repFallback : RepresentationModel :=
  { rep_id := "", label := none, usage_type := .access, files := [], creation_date := none }

/-- A placeholder file record (same role as `repFallback`). -/
def fileFallback : FileModel :=
  { file_id := "", label := "", mime_type := "", original_name := "", original_path := none
    size_bytes := 0, fixities := [], dmd_ids := [], adm_ids := [] }

/-- The package parsed from the claim C2 document under `env0`. -/
def sipC2 : SIPModel :=
  match parse_mets_to_sip docC2 "f" env0 with
  | .ok p => p.1
  | .error _ =>
    { sip_id := "", intellectual_entities := [], creation_date := none, submitting_agent := "" }

/-- The warnings of the same parse run. -/
def wsC2 : List String :=
  match parse_mets_to_sip docC2 "f" env0 with
  | .ok p => p.2
  | .error _ => []

/-- The first representation of `sipC2`'s entity. -/
def repC2 : RepresentationModel :=
  (((sipC2.intellectual_entities.head?).map (·.representations)).getD []).headD repFallback

/-- The first file of `repC2`. -/
def fileC2 : FileModel := repC2.files.headD fileFallback

/-- The package parsed from the claim C2 document under `envA`. -/
def sipC2A : SIPModel :=
  match parse_mets_to_sip docC2 "f" envA with
  | .ok p => p.1
  | .error _ =>
    { sip_id := "", intellectual_entities := [], creation_date := none, submitting_agent := "" }

/-- The warnings of the `envA` parse run. -/
def wsC2A : List String :=
  match parse_mets_to_sip docC2 "f" envA with
  | .ok p => p.2
  | .error _ => []

/-- The package parsed from the claim C2 document under `envB`. -/
def sipC2B : SIPModel :=
  match parse_mets_to_sip docC2 "f" envB with
  | .ok p => p.1
  | .error _ =>
    { sip_id := "", intellectual_entities := [], creation_date := none, submitting_agent := "" }

/-- The warnings of the `envB` parse run. -/
def wsC2B : List String :=
  match parse_mets_to_sip docC2 "f" envB with
  | .ok p => p.2
  | .error _ => []

/-! ## Specification-side definitions

These definitions follow the wording of the specification (not the source)
and are used to compare the embedded code against the spec's claims. -/

/-- Spec wording (claim C3): for a field of the record node, "the text of all
matching child elements of the record node, in document order" (with the
spec's text-extraction rule: trimmed, absent when empty or whitespace-only). -/
def specFieldTexts (dmd_sec : Element) (field : String) : List String :=
  match dcRecordOf dmd_sec with
  | none => []
  | some dc_record =>
    (dc_record.childList.filter (fun c => c.tag == "dc:" ++ field)).filterMap truthyText

/-- Spec wording (claim C4): the fixity entries of the referenced
administrative section's technical metadata — one per `dnx:record` of its
`fileFixity` section, kept when the record has both an algorithm coercing to
a known `FixityType` and a non-empty digest, in document order. -/
def specFixityEntries (root : Element) (admid : String) : List (FixityType × String) :=
  match root.findDescAttr "mets:amdSec" "ID" admid with
  | none => []
  | some amd_sec =>
    match amd_sec.findDesc "mets:techMD" with
    | none => []
    | some tech_md =>
      match dnxSectionOf tech_md "fileFixity" with
      | none => []
      | some sec =>
        (sec.findAllDesc "dnx:record").filterMap fun record =>
          let m := dnxRecordKeys record
          match FixityType.ofValue (pyUpper (dictGetD m "fixityType" "")) with
          | none => none
          | some ft =>
            match dictGet m "fixityValue" with
            | none => none
            | some v => if v = "" then none else some (ft, v)

/-! ## Deterministic fingerprints

The projection of a parse result onto the fields that do not depend on the
run environment (clock and UUID supply); used to state how much of the output
is reproducible across runs. -/

/-- Every `FileModel` field except the identifier-derived ones (`file_id`
itself, and `label` / `original_name`, which default to it when their
metadata keys are absent) and the fixities' owning-file identifiers. -/
def FileModel.fingerprint (f : FileModel) :
    String × Option String × Int × List String × List String × List (FixityType × String) :=
  (f.mime_type, f.original_path, f.size_bytes, f.dmd_ids, f.adm_ids,
   f.fixities.map (fun fx => (fx.fixity_type, fx.fixity_value)))

/-- Every `RepresentationModel` field except the creation timestamp. -/
def RepresentationModel.fingerprint (r : RepresentationModel) :
    String × Option String × RepresentationType
      × List (String × Option String × Int × List String × List String × List (FixityType × String)) :=
  (r.rep_id, r.label, r.usage_type, r.files.map FileModel.fingerprint)

/-- Every `IEModel` field, with representations projected. -/
def IEModel.fingerprint (ie : IEModel) :=
  (ie.ie_id, ie.dc, ie.ie_entity_type, ie.representations.map RepresentationModel.fingerprint)

/-- Every `SIPModel` field except the creation timestamp, with entities
projected. -/
def SIPModel.fingerprint (s : SIPModel) :=
  (s.sip_id, s.submitting_agent, s.intellectual_entities.map IEModel.fingerprint)

/-! ## Helper lemmas -/

theorem dictGet_mem {α : Type} {m : List (String × α)} {k : String} {v : α}
    (h : dictGet m k = some v) : (k, v) ∈ m := by
  unfold dictGet at h
  rcases Option.map_eq_some'.mp h with ⟨p, hf, hv⟩
  have hmem := List.mem_of_find?_eq_some hf
  have hk := List.find?_some hf
  rw [List.mem_reverse] at hmem
  have : p.1 = k := by simpa using hk
  rcases p with ⟨a, b⟩
  simp only at this hv
  subst this; subst hv; exact hmem

theorem parse_dc_metadata_type_empty (dmd_sec : Element) :
    (parse_dc_metadata dmd_sec).type = [] := by
  unfold parse_dc_metadata
  cases dcRecordOf dmd_sec <;> rfl

theorem parse_dc_metadata_identifier_empty (dmd_sec : Element) :
    (parse_dc_metadata dmd_sec).identifier = [] := by
  unfold parse_dc_metadata
  cases dcRecordOf dmd_sec <;> rfl

theorem dmdMap_entry {root : Element} {k : String} {dc : DublinCore}
    (h : dictGet (parse_metadata_sections root).1 k = some dc) :
    dc.type = [] ∧ dc.identifier = [] := by
  have hm := dictGet_mem h
  simp only [parse_metadata_sections, List.mem_filterMap] at hm
  rcases hm with ⟨sec, _, hsec⟩
  rcases hid : sec.getAttr "ID" with _ | i
  · rw [hid] at hsec; simp at hsec
  · rw [hid] at hsec
    by_cases hi : i = ""
    · simp [hi] at hsec
    · simp only [hi, if_false, Option.some_inj, Prod.mk.injEq] at hsec
      rcases hsec with ⟨-, hdc⟩
      rw [← hdc]
      exact ⟨parse_dc_metadata_type_empty sec, parse_dc_metadata_identifier_empty sec⟩

theorem build_ie_ok_reps {sip_id : String} {dmd_map : List (String × DublinCore)}
    {amd_map : List (String × List (String × String))}
    {reps : List RepresentationModel} {ie : IEModel}
    (h : build_ie_model sip_id dmd_map amd_map reps = .ok ie) :
    ie.representations = reps := by
  unfold build_ie_model at h
  split at h
  · exact absurd h (by simp)
  · split at h
    · exact absurd h (by simp)
    · have := Except.ok.inj h
      rw [← this]

theorem build_ie_error_shape {sip_id : String} {dmd_map : List (String × DublinCore)}
    {amd_map : List (String × List (String × String))}
    {reps : List RepresentationModel} {e : PyErr}
    (h : build_ie_model sip_id dmd_map amd_map reps = .error e) :
    ∃ m, e = .metsParsingError m := by
  unfold build_ie_model at h
  split at h
  · exact ⟨_, (Except.error.inj h).symm⟩
  · split at h
    · exact ⟨_, (Except.error.inj h).symm⟩
    · exact absurd h (by simp)

theorem build_ie_ok_iff (sip_id : String) (dmd_map : List (String × DublinCore))
    (amd_map : List (String × List (String × String)))
    (reps : List RepresentationModel) :
    (∃ ie, build_ie_model sip_id dmd_map amd_map reps = .ok ie) ↔
      ∃ dc, dictGet dmd_map "ie-dmd" = some dc ∧
        ¬(dc.title = [] ∧ dc.identifier = [] ∧ dc.type = []) := by
  unfold build_ie_model
  rcases hd : dictGet dmd_map "ie-dmd" with _ | dc
  · simp
  · dsimp only
    by_cases hc : dc.title = [] ∧ dc.identifier = [] ∧ dc.type = []
    · rw [if_pos hc]; simp [hc]
    · rw [if_neg hc]
      simp only [not_and] at hc ⊢
      constructor
      · intro
        exact ⟨dc, rfl, hc⟩
      · intro
        exact ⟨_, rfl⟩

theorem pfe_fix_owner (env : Env) (ctr : Nat) (fe : Element)
    (amd_map : List (String × List (String × String))) (ro : Option Element) :
    ∀ fx ∈ ((parse_file_element env ctr fe amd_map ro).1).fixities,
      fx.file_id = ((parse_file_element env ctr fe amd_map ro).1).file_id := by
  intro fx hfx
  unfold parse_file_element at hfx ⊢
  dsimp only at hfx ⊢
  rcases hc : (fixityCandidate ro ((fe.getAttr "ADMID").getD "")
      ((fe.getAttr "ID").getD (env.uuid ctr))).1 with _ | ⟨ft, v⟩
  · rw [hc] at hfx
    simp at hfx
  · rw [hc] at hfx
    simp only [List.mem_singleton] at hfx
    rw [hfx]

theorem parseFiles_fix_owner (env : Env) (amd_map : List (String × List (String × String)))
    (root : Element) :
    ∀ (fes : List Element) (ctr : Nat),
      ∀ f ∈ (parseFiles env amd_map root fes ctr).1,
        ∀ fx ∈ f.fixities, fx.file_id = f.file_id := by
  intro fes
  induction fes with
  | nil =>
    intro ctr f hf
    simp [parseFiles] at hf
  | cons fe rest ih =>
    intro ctr f hf
    simp only [parseFiles] at hf
    rcases List.mem_cons.mp hf with hf | hf
    · intro fx hfx
      rw [hf] at hfx ⊢
      exact pfe_fix_owner env ctr fe amd_map (some root) fx hfx
    · exact ih _ f hf

theorem processGroup_some_inv {env : Env} {root : Element}
    {amd_map : List (String × List (String × String))} {ctr : Nat} {g : Element}
    {r : RepresentationModel} {c' : Nat} {ws : List String}
    (h : processGroup env root amd_map ctr g = .ok (some r, c', ws)) :
    r.files ≠ [] ∧ r.creation_date = some env.now ∧
      ∀ f ∈ r.files, ∀ fx ∈ f.fixities, fx.file_id = f.file_id := by
  unfold processGroup at h
  dsimp only at h
  rcases hu : usageStrOf root ((g.getAttr "ADMID").getD "") with e | us
  · rw [hu] at h
    exact absurd h (by simp)
  · rw [hu] at h
    dsimp only at h
    split at h
    · exact absurd ((Prod.mk.injEq _ _ _ _).mp (Except.ok.inj h)).1 (by simp)
    · have h2 := Except.ok.inj h
      have hr : some _ = some r := ((Prod.mk.injEq _ _ _ _).mp h2).1
      have hrm := Option.some.inj hr
      refine ⟨?_, ?_, ?_⟩
      · rw [← hrm]
        simpa using (by assumption : ¬ _)
      · rw [← hrm]
      · rw [← hrm]
        exact parseFiles_fix_owner env amd_map root _ ctr

theorem groupsGo_inv (env : Env) (root : Element)
    (amd_map : List (String × List (String × String))) :
    ∀ (gs : List Element) (ctr : Nat) (reps : List RepresentationModel)
      (c' : Nat) (ws : List String),
      groupsGo env root amd_map gs ctr = .ok (reps, c', ws) →
      ∀ r ∈ reps, r.files ≠ [] ∧ r.creation_date = some env.now ∧
        ∀ f ∈ r.files, ∀ fx ∈ f.fixities, fx.file_id = f.file_id := by
  intro gs
  induction gs with
  | nil =>
    intro ctr reps c' ws h r hr
    simp only [groupsGo] at h
    have h2 := Except.ok.inj h
    rw [← ((Prod.mk.injEq _ _ _ _).mp h2).1] at hr
    simp at hr
  | cons g rest ih =>
    intro ctr reps c' ws h r hr
    simp only [groupsGo] at h
    rcases hpg : processGroup env root amd_map ctr g with e | ⟨orep, ctr2, ws2⟩
    · rw [hpg] at h
      exact absurd h (by simp)
    · rw [hpg] at h
      dsimp only at h
      rcases hgg : groupsGo env root amd_map rest ctr2 with e | ⟨reps2, ctr3, ws3⟩
      · rw [hgg] at h
        exact absurd h (by simp)
      · rw [hgg] at h
        dsimp only at h
        have h2 := Except.ok.inj h
        have hreps := ((Prod.mk.injEq _ _ _ _).mp h2).1
        rcases orep with _ | r0
        · dsimp only at hreps
          rw [← hreps] at hr
          exact ih ctr2 reps2 ctr3 ws3 hgg r hr
        · dsimp only at hreps
          rw [← hreps] at hr
          rcases List.mem_cons.mp hr with hr0 | hrrest
          · rw [← hr0] at hpg
            exact processGroup_some_inv hpg
          · exact ih ctr2 reps2 ctr3 ws3 hgg r hrrest

theorem process_file_sections_inv {env : Env} {root : Element}
    {amd_map : List (String × List (String × String))} {ctr : Nat}
    {reps : List RepresentationModel} {c' : Nat} {ws : List String}
    (h : process_file_sections env root amd_map ctr = .ok (reps, c', ws)) :
    ∀ r ∈ reps, r.files ≠ [] ∧ r.creation_date = some env.now ∧
      ∀ f ∈ r.files, ∀ fx ∈ f.fixities, fx.file_id = f.file_id := by
  unfold process_file_sections at h
  rcases hf : root.findChild "mets:fileSec" with _ | fs
  · rw [hf] at h
    have h2 := Except.ok.inj h
    intro r hr
    rw [← ((Prod.mk.injEq _ _ _ _).mp h2).1] at hr
    simp at hr
  · rw [hf] at h
    exact groupsGo_inv env root amd_map _ ctr reps c' ws h

/-- The master invariant of a successful parse: the package timestamp and all
representation timestamps are the run clock, there is exactly one entity, its
representations all have files, and every fixity names its owning file. -/
theorem parse_ok_inv {root : Element} {stem : String} {env : Env}
    {s : SIPModel} {ws : List String}
    (h : parse_mets_to_sip root stem env = .ok (s, ws)) :
    s.creation_date = some env.now ∧ s.intellectual_entities.length = 1 ∧
      ∀ ie ∈ s.intellectual_entities, ∀ r ∈ ie.representations,
        r.files ≠ [] ∧ r.creation_date = some env.now ∧
          ∀ f ∈ r.files, ∀ fx ∈ f.fixities, fx.file_id = f.file_id := by
  unfold parse_mets_to_sip at h
  dsimp only at h
  rcases hp : process_file_sections env root (parse_metadata_sections root).2 0
      with e | ⟨reps, c2, ws2⟩
  · rw [hp] at h
    exact absurd h (by simp)
  · rw [hp] at h
    dsimp only at h
    rcases hb : build_ie_model (extract_sip_metadata root stem).1
        (parse_metadata_sections root).1 (parse_metadata_sections root).2 reps
        with e | ie
    · rw [hb] at h
      exact absurd h (by simp)
    · rw [hb] at h
      dsimp only at h
      have h2 := Except.ok.inj h
      have hs := ((Prod.mk.injEq _ _ _ _).mp h2).1
      rw [← hs]
      refine ⟨rfl, rfl, ?_⟩
      intro ie2 hie2 r hr
      simp only [List.mem_singleton] at hie2
      rw [hie2] at hr
      rw [build_ie_ok_reps hb] at hr
      exact process_file_sections_inv hp r hr

/-- A failing parse always surfaces as the single `METSParsingError` kind. -/
theorem parse_error_shape {root : Element} {stem : String} {env : Env} {e : PyErr}
    (h : parse_mets_to_sip root stem env = .error e) :
    ∃ m, e = .metsParsingError m := by
  unfold parse_mets_to_sip at h
  dsimp only at h
  rcases hp : process_file_sections env root (parse_metadata_sections root).2 0
      with e2 | ⟨reps, c2, ws2⟩
  · rw [hp] at h
    exact ⟨_, (Except.error.inj h).symm⟩
  · rw [hp] at h
    dsimp only at h
    rcases hb : build_ie_model (extract_sip_metadata root stem).1
        (parse_metadata_sections root).1 (parse_metadata_sections root).2 reps
        with e2 | ie
    · rw [hb] at h
      exact ⟨_, (Except.error.inj h).symm⟩
    · rw [hb] at h
      exact absurd h (by simp)

theorem sizeParseOf_fst (file_data : List (String × String)) (fid1 fid2 : String) :
    (sizeParseOf file_data fid1).1 = (sizeParseOf file_data fid2).1 := by
  unfold sizeParseOf
  cases dictGet file_data "fileSize" with
  | none => rfl
  | some s =>
    dsimp only
    cases pyInt s <;> rfl

theorem fixityCandidate_fst (ro : Option Element) (admid fid1 fid2 : String) :
    (fixityCandidate ro admid fid1).1 = (fixityCandidate ro admid fid2).1 := by
  unfold fixityCandidate
  dsimp only
  by_cases hf : fileFixityMapOf ro admid = []
  · simp [hf]
  · rw [if_neg hf, if_neg hf]
    cases FixityType.ofValue (pyUpper (dictGetD (fileFixityMapOf ro admid) "fixityType" "")) with
    | none => rfl
    | some ft =>
      cases dictGet (fileFixityMapOf ro admid) "fixityValue" with
      | none => rfl
      | some v => by_cases hv : v = "" <;> simp [hv]

theorem pfe_fingerprint (e1 e2 : Env) (c1 c2 : Nat) (fe : Element)
    (amd_map : List (String × List (String × String))) (ro : Option Element) :
    ((parse_file_element e1 c1 fe amd_map ro).1).fingerprint
      = ((parse_file_element e2 c2 fe amd_map ro).1).fingerprint := by
  unfold parse_file_element FileModel.fingerprint
  dsimp only
  rw [sizeParseOf_fst _ ((fe.getAttr "ID").getD (e1.uuid c1)) ((fe.getAttr "ID").getD (e2.uuid c2)),
    fixityCandidate_fst ro ((fe.getAttr "ADMID").getD "")
      ((fe.getAttr "ID").getD (e1.uuid c1)) ((fe.getAttr "ID").getD (e2.uuid c2))]
  cases (fixityCandidate ro ((fe.getAttr "ADMID").getD "")
      ((fe.getAttr "ID").getD (e2.uuid c2))).1 with
  | none => rfl
  | some p => rcases p with ⟨ft, v⟩; rfl

theorem parseFiles_fingerprint (e1 e2 : Env)
    (amd_map : List (String × List (String × String))) (root : Element) :
    ∀ (fes : List Element) (c1 c2 : Nat),
      ((parseFiles e1 amd_map root fes c1).1).map FileModel.fingerprint
        = ((parseFiles e2 amd_map root fes c2).1).map FileModel.fingerprint := by
  intro fes
  induction fes with
  | nil => intro c1 c2; rfl
  | cons fe rest ih =>
    intro c1 c2
    simp only [parseFiles, List.map_cons]
    rw [pfe_fingerprint e1 e2 c1 c2 fe amd_map (some root)]
    rw [ih ((parse_file_element e1 c1 fe amd_map (some root)).2.1)
        ((parse_file_element e2 c2 fe amd_map (some root)).2.1)]

theorem processGroup_error_det {e1 e2 : Env} {root : Element}
    {amd_map : List (String × List (String × String))} {c1 c2 : Nat} {g : Element}
    {er : PyErr} (h : processGroup e1 root amd_map c1 g = .error er) :
    processGroup e2 root amd_map c2 g = .error er := by
  unfold processGroup at h ⊢
  dsimp only at h ⊢
  rcases hu : usageStrOf root ((g.getAttr "ADMID").getD "") with e | us
  · rw [hu] at h
    dsimp only at h ⊢
    exact h
  · rw [hu] at h
    dsimp only at h
    split at h <;> exact absurd h (by simp)

theorem processGroup_ok_det {e1 e2 : Env} {root : Element}
    {amd_map : List (String × List (String × String))} {c1 c2 : Nat} {g : Element}
    {o1 o2 : Option RepresentationModel} {x1 x2 : Nat} {w1 w2 : List String}
    (h1 : processGroup e1 root amd_map c1 g = .ok (o1, x1, w1))
    (h2 : processGroup e2 root amd_map c2 g = .ok (o2, x2, w2)) :
    o1.map RepresentationModel.fingerprint = o2.map RepresentationModel.fingerprint := by
  unfold processGroup at h1 h2
  dsimp only at h1 h2
  rcases hu : usageStrOf root ((g.getAttr "ADMID").getD "") with e | us
  · rw [hu] at h1
    exact absurd h1 (by simp)
  · rw [hu] at h1 h2
    dsimp only at h1 h2
    have hfp := parseFiles_fingerprint e1 e2 amd_map root (g.findAllChildren "mets:file") c1 c2
    by_cases hemp : (parseFiles e1 amd_map root (g.findAllChildren "mets:file") c1).1 = []
    · have hemp2 : (parseFiles e2 amd_map root (g.findAllChildren "mets:file") c2).1 = [] := by
        rw [hemp] at hfp
        exact List.map_eq_nil_iff.mp hfp.symm
      rw [if_pos hemp] at h1
      rw [if_pos hemp2] at h2
      have e1h := ((Prod.mk.injEq _ _ _ _).mp (Except.ok.inj h1)).1
      have e2h := ((Prod.mk.injEq _ _ _ _).mp (Except.ok.inj h2)).1
      rw [← e1h, ← e2h]
    · have hemp2 : ¬ (parseFiles e2 amd_map root (g.findAllChildren "mets:file") c2).1 = [] := by
        intro hc
        rw [hc] at hfp
        exact hemp (List.map_eq_nil_iff.mp hfp)
      rw [if_neg hemp] at h1
      rw [if_neg hemp2] at h2
      have e1h := ((Prod.mk.injEq _ _ _ _).mp (Except.ok.inj h1)).1
      have e2h := ((Prod.mk.injEq _ _ _ _).mp (Except.ok.inj h2)).1
      rw [← e1h, ← e2h]
      simp only [Option.map_some', RepresentationModel.fingerprint]
      rw [hfp]

theorem groupsGo_error_det {e1 e2 : Env} {root : Element}
    {amd_map : List (String × List (String × String))} :
    ∀ {gs : List Element} {c1 c2 : Nat} {er : PyErr},
      groupsGo e1 root amd_map gs c1 = .error er →
      groupsGo e2 root amd_map gs c2 = .error er := by
  intro gs
  induction gs with
  | nil =>
    intro c1 c2 er h
    exact absurd h (by simp [groupsGo])
  | cons g rest ih =>
    intro c1 c2 er h
    simp only [groupsGo] at h ⊢
    rcases hp1 : processGroup e1 root amd_map c1 g with er0 | ⟨o1, c1', w1⟩
    · rw [hp1] at h
      rw [processGroup_error_det hp1]
      exact h
    · rw [hp1] at h
      dsimp only at h
      rcases hp2 : processGroup e2 root amd_map c2 g with er0 | ⟨o2, c2', w2⟩
      · exact absurd (processGroup_error_det hp2) (by rw [hp1]; simp)
      · dsimp only
        rcases hg1 : groupsGo e1 root amd_map rest c1' with er1 | ⟨reps1, x1, y1⟩
        · rw [hg1] at h
          rw [ih hg1]
          exact h
        · rw [hg1] at h
          exact absurd h (by simp)

theorem groupsGo_ok_det {e1 e2 : Env} {root : Element}
    {amd_map : List (String × List (String × String))} :
    ∀ {gs : List Element} {c1 c2 : Nat} {reps1 reps2 : List RepresentationModel}
      {x1 x2 : Nat} {w1 w2 : List String},
      groupsGo e1 root amd_map gs c1 = .ok (reps1, x1, w1) →
      groupsGo e2 root amd_map gs c2 = .ok (reps2, x2, w2) →
      reps1.map RepresentationModel.fingerprint = reps2.map RepresentationModel.fingerprint := by
  intro gs
  induction gs with
  | nil =>
    intro c1 c2 reps1 reps2 x1 x2 w1 w2 h1 h2
    simp only [groupsGo] at h1 h2
    have e1h := ((Prod.mk.injEq _ _ _ _).mp (Except.ok.inj h1)).1
    have e2h := ((Prod.mk.injEq _ _ _ _).mp (Except.ok.inj h2)).1
    rw [← e1h, ← e2h]
  | cons g rest ih =>
    intro c1 c2 reps1 reps2 x1 x2 w1 w2 h1 h2
    simp only [groupsGo] at h1 h2
    rcases hp1 : processGroup e1 root amd_map c1 g with er0 | ⟨o1, c1', wa1⟩
    · rw [hp1] at h1
      exact absurd h1 (by simp)
    · rw [hp1] at h1
      dsimp only at h1
      rcases hp2 : processGroup e2 root amd_map c2 g with er0 | ⟨o2, c2', wa2⟩
      · exact absurd (processGroup_error_det hp2) (by rw [hp1]; simp)
      · rw [hp2] at h2
        dsimp only at h2
        rcases hg1 : groupsGo e1 root amd_map rest c1' with er1 | ⟨rr1, z1, v1⟩
        · rw [hg1] at h1
          exact absurd h1 (by simp)
        · rw [hg1] at h1
          dsimp only at h1
          rcases hg2 : groupsGo e2 root amd_map rest c2' with er1 | ⟨rr2, z2, v2⟩
          · exact absurd (groupsGo_error_det hg2) (by rw [hg1]; simp)
          · rw [hg2] at h2
            dsimp only at h2
            have hrr := ih hg1 hg2
            have hoo := processGroup_ok_det hp1 hp2
            have e1h := ((Prod.mk.injEq _ _ _ _).mp (Except.ok.inj h1)).1
            have e2h := ((Prod.mk.injEq _ _ _ _).mp (Except.ok.inj h2)).1
            rw [← e1h, ← e2h]
            rcases o1 with _ | r1 <;> rcases o2 with _ | r2
            · exact hrr
            · exact absurd hoo (by simp)
            · exact absurd hoo (by simp)
            · simp only [Option.map_some'] at hoo
              simp only [List.map_cons]
              rw [Option.some.inj hoo, hrr]

theorem process_file_sections_error_det {e1 e2 : Env} {root : Element}
    {amd_map : List (String × List (String × String))} {c1 c2 : Nat} {er : PyErr}
    (h : process_file_sections e1 root amd_map c1 = .error er) :
    process_file_sections e2 root amd_map c2 = .error er := by
  unfold process_file_sections at h ⊢
  rcases hf : root.findChild "mets:fileSec" with _ | fs
  · rw [hf] at h
    exact absurd h (by simp)
  · rw [hf] at h
    exact groupsGo_error_det h

theorem process_file_sections_ok_det {e1 e2 : Env} {root : Element}
    {amd_map : List (String × List (String × String))} {c1 c2 : Nat}
    {reps1 reps2 : List RepresentationModel} {x1 x2 : Nat} {w1 w2 : List String}
    (h1 : process_file_sections e1 root amd_map c1 = .ok (reps1, x1, w1))
    (h2 : process_file_sections e2 root amd_map c2 = .ok (reps2, x2, w2)) :
    reps1.map RepresentationModel.fingerprint = reps2.map RepresentationModel.fingerprint := by
  unfold process_file_sections at h1 h2
  rcases hf : root.findChild "mets:fileSec" with _ | fs
  · rw [hf] at h1 h2
    have e1h := ((Prod.mk.injEq _ _ _ _).mp (Except.ok.inj h1)).1
    have e2h := ((Prod.mk.injEq _ _ _ _).mp (Except.ok.inj h2)).1
    rw [← e1h, ← e2h]
  · rw [hf] at h1 h2
    exact groupsGo_ok_det h1 h2

theorem build_ie_fingerprint_det {sip_id : String} {dmd_map : List (String × DublinCore)}
    {amd_map : List (String × List (String × String))}
    {reps1 reps2 : List RepresentationModel} {ie1 ie2 : IEModel}
    (hr : reps1.map RepresentationModel.fingerprint = reps2.map RepresentationModel.fingerprint)
    (h1 : build_ie_model sip_id dmd_map amd_map reps1 = .ok ie1)
    (h2 : build_ie_model sip_id dmd_map amd_map reps2 = .ok ie2) :
    ie1.fingerprint = ie2.fingerprint := by
  unfold build_ie_model at h1 h2
  rcases hd : dictGet dmd_map "ie-dmd" with _ | dc
  · rw [hd] at h1
    exact absurd h1 (by simp)
  · rw [hd] at h1 h2
    dsimp only at h1 h2
    by_cases hc : dc.title = [] ∧ dc.identifier = [] ∧ dc.type = []
    · rw [if_pos hc] at h1
      exact absurd h1 (by simp)
    · rw [if_neg hc] at h1 h2
      rw [← Except.ok.inj h1, ← Except.ok.inj h2]
      simp only [IEModel.fingerprint]
      rw [hr]

theorem parse_fingerprint_det {root : Element} {stem : String} {e1 e2 : Env}
    {s1 s2 : SIPModel} {ws1 ws2 : List String}
    (h1 : parse_mets_to_sip root stem e1 = .ok (s1, ws1))
    (h2 : parse_mets_to_sip root stem e2 = .ok (s2, ws2)) :
    s1.fingerprint = s2.fingerprint := by
  unfold parse_mets_to_sip at h1 h2
  dsimp only at h1 h2
  rcases hp1 : process_file_sections e1 root (parse_metadata_sections root).2 0
      with er | ⟨reps1, x1, w1⟩
  · rw [hp1] at h1
    exact absurd h1 (by simp)
  · rw [hp1] at h1
    dsimp only at h1
    rcases hp2 : process_file_sections e2 root (parse_metadata_sections root).2 0
        with er | ⟨reps2, x2, w2⟩
    · exact absurd (process_file_sections_error_det hp2) (by rw [hp1]; simp)
    · rw [hp2] at h2
      dsimp only at h2
      rcases hb1 : build_ie_model (extract_sip_metadata root stem).1
          (parse_metadata_sections root).1 (parse_metadata_sections root).2 reps1
          with er | ie1
      · rw [hb1] at h1
        exact absurd h1 (by simp)
      · rw [hb1] at h1
        dsimp only at h1
        rcases hb2 : build_ie_model (extract_sip_metadata root stem).1
            (parse_metadata_sections root).1 (parse_metadata_sections root).2 reps2
            with er | ie2
        · rw [hb2] at h2
          exact absurd h2 (by simp)
        · rw [hb2] at h2
          dsimp only at h2
          have hie := build_ie_fingerprint_det
            (process_file_sections_ok_det hp1 hp2) hb1 hb2
          have g1 := ((Prod.mk.injEq _ _ _ _).mp (Except.ok.inj h1)).1
          have g2 := ((Prod.mk.injEq _ _ _ _).mp (Except.ok.inj h2)).1
          rw [← g1, ← g2]
          simp only [SIPModel.fingerprint, List.map_cons, List.map_nil]
          rw [hie]

/-! ## The claims -/

/-- Claim C1 counterexample: a well-formed document whose `ie-dmd` section
declares a non-empty `dc:identifier` (`"ID-X"`) and `dc:type` (`"Text"`) but
no title.  The claim says entity assembly succeeds; the code raises the
structural error, because the descriptive extractor never populates the
`identifier` and `type` fields it is later tested on. -/
theorem claim1_counterexample :
    ((docC1.findAllChildren "mets:dmdSec").map (fun s => specFieldTexts s "identifier"))
      = [["ID-X"]] ∧
    ((docC1.findAllChildren "mets:dmdSec").map (fun s => specFieldTexts s "type"))
      = [["Text"]] ∧
    parse_mets_to_sip docC1 "f" env0
      = .error (.metsParsingError
          "Failed to parse METS structure: Missing required Dublin Core metadata") :=
  ⟨by decide, by decide, rfl⟩

/-- Claim C1 (amended): entity assembly raises the structural error iff the
map it receives has no `"ie-dmd"` record or that record has all three of
title, identifier and type empty; but the descriptive extractor populates
only title, creator and rights — extracted records (both in isolation and as
entries of the document's descriptive map) always carry empty `identifier`
and `type` — so via `parse_mets_to_sip` a document whose `ie-dmd` declares
`dc:identifier` or `dc:type` but no title FAILS entity assembly rather than
succeeding. -/
theorem claim1_amended :
    (∀ (sip_id : String) (dmd_map : List (String × DublinCore))
       (amd_map : List (String × List (String × String)))
       (reps : List RepresentationModel),
       (∃ ie, build_ie_model sip_id dmd_map amd_map reps = .ok ie) ↔
         ∃ dc, dictGet dmd_map "ie-dmd" = some dc ∧
           ¬(dc.title = [] ∧ dc.identifier = [] ∧ dc.type = [])) ∧
    (∀ dmd_sec : Element,
       (parse_dc_metadata dmd_sec).type = [] ∧ (parse_dc_metadata dmd_sec).identifier = []) ∧
    (∀ (root : Element) (k : String) (dc : DublinCore),
       dictGet (parse_metadata_sections root).1 k = some dc →
       dc.type = [] ∧ dc.identifier = []) :=
  ⟨build_ie_ok_iff,
   fun dmd_sec =>
     ⟨parse_dc_metadata_type_empty dmd_sec, parse_dc_metadata_identifier_empty dmd_sec⟩,
   fun _ _ _ h => dmdMap_entry h⟩

/-- Witness for the amended claim C1, at concrete inputs. -/
theorem claim1_witness :
    (∃ ie, build_ie_model "SIP-9" [("ie-dmd", { title := ["T"] })] [] [] = .ok ie) ∧
    (({ title := ["Report"] } : DublinCore).type = [] ∧
      ({ title := ["Report"] } : DublinCore).identifier = []) :=
  ⟨(claim1_amended.1 "SIP-9" [("ie-dmd", { title := ["T"] })] [] []).mpr
     ⟨{ title := ["T"] }, by decide, by decide⟩,
   claim1_amended.2.2 docC2 "ie-dmd" { title := ["Report"] } (by decide)⟩

/-- Claim C2 (confirmed): the concrete scenario — OBJID `SIP-001`, one
`ie-dmd` section titled `Report`, one file group with one file whose
referenced administrative section carries a SHA-256/`deadbeef` fixity —
parses to a package with identifier `SIP-001`, exactly one entity `IE-001`,
one representation with one file whose fixity list is exactly the one
SHA-256/`deadbeef` record, whatever the run environment. -/
theorem claim2_scenario (env : Env) :
    ∃ s ws, parse_mets_to_sip docC2 "mets" env = .ok (s, ws) ∧
      s.sip_id = "SIP-001" ∧
      s.intellectual_entities.map (fun ie => ie.ie_id) = ["IE-001"] ∧
      s.intellectual_entities.map
          (fun ie => ie.representations.map (fun r => r.files.map (fun f => f.fixities)))
        = [[[[{ fixity_type := .SHA256, fixity_value := "deadbeef", file_id := "file-1" }]]]] :=
  ⟨_, _, rfl, rfl, rfl, rfl⟩

/-- Claim C3 counterexample: a descriptive section carrying one `dc:type` and
one `dc:identifier` value.  The claim says the returned record's `type` and
`identifier` lists contain those texts; the code returns them empty. -/
theorem claim3_counterexample :
    specFieldTexts dmdSecC3 "type" = ["Text"] ∧
    (parse_dc_metadata dmdSecC3).type = [] ∧
    specFieldTexts dmdSecC3 "identifier" = ["ID-1"] ∧
    (parse_dc_metadata dmdSecC3).identifier = [] :=
  ⟨by decide, by decide, by decide, by decide⟩

/-- Claim C3 (amended): when the wrapper/record path is present, the
extractor fills `title`, `creator` and `rights` with the texts of all
matching child elements of the record node in document order (whitespace
trimmed, empty/whitespace-only texts skipped) — but `type` and `identifier`
are always empty in the returned record: the `DublinCore(...)` construction
passes only the three fields. -/
theorem claim3_amended (dmd_sec : Element) :
    (parse_dc_metadata dmd_sec).title = specFieldTexts dmd_sec "title" ∧
    (parse_dc_metadata dmd_sec).creator = specFieldTexts dmd_sec "creator" ∧
    (parse_dc_metadata dmd_sec).rights = specFieldTexts dmd_sec "rights" ∧
    (parse_dc_metadata dmd_sec).type = [] ∧
    (parse_dc_metadata dmd_sec).identifier = [] := by
  unfold parse_dc_metadata specFieldTexts
  rcases hdc : dcRecordOf dmd_sec with _ | rec
  · exact ⟨rfl, rfl, rfl, rfl, rfl⟩
  · exact ⟨rfl, rfl, rfl, rfl, rfl⟩

/-- Claim C4 counterexample: an administrative section carrying TWO fixity
entries (MD5/`aaa`, then SHA-256/`bbb`), both with known algorithms and
non-empty digests.  The claim says the file's fixity list has one record per
entry (two); the code flattens the section into one key map in which the
second record's keys overwrite the first's, and produces a single record. -/
theorem claim4_counterexample :
    specFixityEntries docC4 "fx-amd" = [(.MD5, "aaa"), (.SHA256, "bbb")] ∧
    (parse_file_element env0 0 fileElC4 (parse_metadata_sections docC4).2 (some docC4)).1.fixities
      = [{ fixity_type := .SHA256, fixity_value := "bbb", file_id := "f1" }] ∧
    (parse_file_element env0 0 fileElC4 (parse_metadata_sections docC4).2 (some docC4)).1.fixities.length
      ≠ (specFixityEntries docC4 "fx-amd").length :=
  ⟨by decide, by decide, by decide⟩

/-- Claim C4 (amended): a file's fixity list holds AT MOST ONE record, read
from the flat merged key map of the referenced section's `fileFixity` DNX
section (later fixity entries overwrite earlier ones); the record is present
exactly when the merged algorithm (uppercased) coerces to a known
`FixityType` and the merged digest is non-empty, it always names the owning
file, and when the merged map is non-empty but its algorithm is unrecognized
the list is empty and a warning is recorded — never fabricated. -/
theorem claim4_amended (env : Env) (ctr : Nat) (fe : Element)
    (amd_map : List (String × List (String × String))) (ro : Option Element) :
    ((parse_file_element env ctr fe amd_map ro).1.fixities.length ≤ 1) ∧
    (∀ fx ∈ (parse_file_element env ctr fe amd_map ro).1.fixities,
       fx.file_id = (parse_file_element env ctr fe amd_map ro).1.file_id ∧
       FixityType.ofValue (pyUpper (dictGetD (fileFixityMapOf ro ((fe.getAttr "ADMID").getD ""))
           "fixityType" "")) = some fx.fixity_type ∧
       dictGet (fileFixityMapOf ro ((fe.getAttr "ADMID").getD "")) "fixityValue"
         = some fx.fixity_value ∧
       fx.fixity_value ≠ "") ∧
    ((fileFixityMapOf ro ((fe.getAttr "ADMID").getD "") ≠ [] ∧
      FixityType.ofValue (pyUpper (dictGetD (fileFixityMapOf ro ((fe.getAttr "ADMID").getD ""))
          "fixityType" "")) = none) →
      (parse_file_element env ctr fe amd_map ro).1.fixities = [] ∧
      ("Invalid fixity data for file " ++ (parse_file_element env ctr fe amd_map ro).1.file_id)
        ∈ (parse_file_element env ctr fe amd_map ro).2.2) := by
  unfold parse_file_element
  dsimp only
  unfold fixityCandidate
  dsimp only
  by_cases hff : fileFixityMapOf ro ((fe.getAttr "ADMID").getD "") = []
  · simp only [if_pos hff]
    refine ⟨by simp, by simp, ?_⟩
    rintro ⟨hne, -⟩
    exact absurd hff hne
  · simp only [if_neg hff]
    rcases ho : FixityType.ofValue (pyUpper (dictGetD (fileFixityMapOf ro
        ((fe.getAttr "ADMID").getD "")) "fixityType" "")) with _ | ft
    · refine ⟨by simp, by simp, ?_⟩
      rintro ⟨-, -⟩
      refine ⟨rfl, ?_⟩
      simp
    · rcases hv : dictGet (fileFixityMapOf ro ((fe.getAttr "ADMID").getD "")) "fixityValue"
          with _ | v
      · refine ⟨by simp, by simp, ?_⟩
        rintro ⟨-, habs⟩
        exact absurd habs (by simp)
      · by_cases hve : v = ""
        · simp only [if_pos hve]
          refine ⟨by simp, by simp, ?_⟩
          rintro ⟨-, habs⟩
          exact absurd habs (by simp)
        · simp only [if_neg hve]
          refine ⟨by simp, ?_, ?_⟩
          · intro fx hfx
            simp only [List.mem_singleton] at hfx
            rw [hfx]
            exact ⟨rfl, rfl, hv ▸ rfl, hve⟩
          · rintro ⟨-, habs⟩
            exact absurd habs (by simp)

/-- Witness for the amended claim C4, at the two-fixity document. -/
theorem claim4_witness :
    (parse_file_element env0 0 fileElC4 (parse_metadata_sections docC4).2
        (some docC4)).1.fixities.length ≤ 1 ∧
    ({ fixity_type := FixityType.SHA256, fixity_value := "bbb", file_id := "f1" }
        : FixityModel).fixity_value ≠ "" :=
  ⟨(claim4_amended env0 0 fileElC4 (parse_metadata_sections docC4).2 (some docC4)).1,
   ((claim4_amended env0 0 fileElC4 (parse_metadata_sections docC4).2 (some docC4)).2.1
      { fixity_type := FixityType.SHA256, fixity_value := "bbb", file_id := "f1" }
      (by decide)).2.2.2⟩

/-- Claim C5 (code bug): for a file group whose administrative reference
resolves to technical metadata whose `generalRepCharacteristics` section has
no `usageType` key, `rep_data.get('usageType', '')` is `None` (the key is
present, bound to `None`) and `.lower()` on it raises `AttributeError`, so
the usage-type coercion ABORTS the whole parse instead of defaulting to
`access` with a warning. -/
theorem claim5_code_bug_eval :
    usageStrOf docC5 "rep-amd"
      = .error (.attributeError "NoneType object has no attribute lower") ∧
    process_file_sections env0 docC5 (parse_metadata_sections docC5).2 0
      = .error (.attributeError "NoneType object has no attribute lower") ∧
    parse_mets_to_sip docC5 "f" env0
      = .error (.metsParsingError
          "Failed to parse METS structure: NoneType object has no attribute lower") :=
  ⟨rfl, rfl, rfl⟩

/-- Claim C6 (confirmed): in every package returned by a successful parse,
every representation has a non-empty file list; and a file group with zero
`mets:file` children that is otherwise processed without error contributes no
representation and records the skip warning (remaining groups are processed
by the same fold, which only aborts on an exception). -/
theorem claim6_nonempty_representations :
    (∀ (env : Env) (root : Element) (stem : String) (s : SIPModel) (ws : List String),
       parse_mets_to_sip root stem env = .ok (s, ws) →
       ∀ ie ∈ s.intellectual_entities, ∀ r ∈ ie.representations, r.files ≠ []) ∧
    (∀ (env : Env) (root : Element) (amd_map : List (String × List (String × String)))
       (ctr : Nat) (g : Element) (orep : Option RepresentationModel) (c' : Nat)
       (ws : List String),
       processGroup env root amd_map ctr g = .ok (orep, c', ws) →
       g.findAllChildren "mets:file" = [] →
       orep = none ∧
         ("Skipping representation " ++ (g.getAttr "ID").getD "rep-unknown"
            ++ " as it contains no valid files") ∈ ws) := by
  constructor
  · intro env root stem s ws h ie hie r hr
    exact ((parse_ok_inv h).2.2 ie hie r hr).1
  · intro env root amd_map ctr g orep c' ws h hz
    unfold processGroup at h
    dsimp only at h
    rcases hu : usageStrOf root ((g.getAttr "ADMID").getD "") with e | us
    · rw [hu] at h
      exact absurd h (by simp)
    · rw [hu] at h
      dsimp only at h
      rw [hz] at h
      simp only [parseFiles] at h
      rw [if_pos trivial] at h
      have h2 := Except.ok.inj h
      have ho := ((Prod.mk.injEq _ _ _ _).mp h2).1
      have hw := ((Prod.mk.injEq _ _ _ _).mp ((Prod.mk.injEq _ _ _ _).mp h2).2).2
      refine ⟨ho.symm, ?_⟩
      rw [← hw]
      simp

/-- Witness for claim C6: the representation of the concrete C2 parse has
files. -/
theorem claim6_witness : repC2.files ≠ [] :=
  claim6_nonempty_representations.1 env0 docC2 "f" sipC2 wsC2 rfl
    (sipC2.intellectual_entities.headD ⟨"", {}, "", []⟩) (by decide) repC2 (by decide)

/-- Claim C7 (confirmed): every parse run either returns a package satisfying
the structural invariants (exactly one entity, every representation
non-empty) or fails with the single `METSParsingError` kind — every internal
error, including the `AttributeError` of the usage-type slip and the entity
assembler's own `METSParsingError`, is re-reported as that one kind, and no
other outcome exists. -/
theorem claim7_error_boundary (root : Element) (stem : String) (env : Env) :
    (∃ s ws, parse_mets_to_sip root stem env = .ok (s, ws) ∧
       s.intellectual_entities.length = 1 ∧
       ∀ ie ∈ s.intellectual_entities, ∀ r ∈ ie.representations, r.files ≠ []) ∨
    (∃ m, parse_mets_to_sip root stem env = .error (.metsParsingError m)) := by
  rcases hp : parse_mets_to_sip root stem env with e | ⟨s, ws⟩
  · right
    rcases parse_error_shape hp with ⟨m, hm⟩
    exact ⟨m, by rw [hm]⟩
  · left
    exact ⟨s, ws, rfl, (parse_ok_inv hp).2.1,
      fun ie hie r hr => ((parse_ok_inv hp).2.2 ie hie r hr).1⟩

/-- Claim C8 counterexample: parsing the same byte-identical document (one
file group, one file with no declared `ID`) in two runs with different clocks
and UUID supplies yields packages that differ not only in the package
creation timestamp but also in the representation creation timestamps
(always set to the current clock, since the source `creationDate` is never
propagated into `rep_data`) and in the file identifier (a fresh UUID). -/
theorem claim8_counterexample :
    (parse_mets_to_sip docC8 "f" envA).toOption.map
        (fun p => p.1.intellectual_entities.map (fun ie => ie.representations.map
          (fun r => (r.creation_date, r.files.map (fun f => f.file_id)))))
      = some [[(some 10, ["uuidA-0"])]] ∧
    (parse_mets_to_sip docC8 "f" envB).toOption.map
        (fun p => p.1.intellectual_entities.map (fun ie => ie.representations.map
          (fun r => (r.creation_date, r.files.map (fun f => f.file_id)))))
      = some [[(some 20, ["uuidB-0"])]] ∧
    ((some 10, ["uuidA-0"]) : Option Nat × List String) ≠ (some 20, ["uuidB-0"]) :=
  ⟨by decide, by decide, by decide⟩

/-- Claim C8 (amended): two parses of the same document agree on every
environment-independent field — package identifier, submitting agent, entity
identifier/metadata/type, representation identifiers, labels and usage
types, and each file's MIME type, path, size, metadata references and fixity
algorithm/digest pairs — while the package creation timestamp and every
representation creation timestamp are the run's clock reading, and the
identifiers of files without a declared `ID` attribute (together with the
label and original name that default to them, and the fixities' owning-file
fields) come from the run's UUID supply. -/
theorem claim8_amended {root : Element} {stem : String} {e1 e2 : Env}
    {s1 s2 : SIPModel} {ws1 ws2 : List String}
    (h1 : parse_mets_to_sip root stem e1 = .ok (s1, ws1))
    (h2 : parse_mets_to_sip root stem e2 = .ok (s2, ws2)) :
    s1.fingerprint = s2.fingerprint ∧
    s1.creation_date = some e1.now ∧ s2.creation_date = some e2.now ∧
    (∀ ie ∈ s1.intellectual_entities, ∀ r ∈ ie.representations,
      r.creation_date = some e1.now) :=
  ⟨parse_fingerprint_det h1 h2, (parse_ok_inv h1).1, (parse_ok_inv h2).1,
   fun ie hie r hr => ((parse_ok_inv h1).2.2 ie hie r hr).2.1⟩

/-- Witness for the amended claim C8, at the concrete C2 document under two
different environments. -/
theorem claim8_witness :
    sipC2A.fingerprint = sipC2B.fingerprint ∧ sipC2A.creation_date = some envA.now :=
  ⟨(claim8_amended (show parse_mets_to_sip docC2 "f" envA = .ok (sipC2A, wsC2A) from rfl)
      (show parse_mets_to_sip docC2 "f" envB = .ok (sipC2B, wsC2B) from rfl)).1,
   (claim8_amended (show parse_mets_to_sip docC2 "f" envA = .ok (sipC2A, wsC2A) from rfl)
      (show parse_mets_to_sip docC2 "f" envB = .ok (sipC2B, wsC2B) from rfl)).2.1⟩

/-- Claim C9 counterexample: an element whose text is whitespace-only.  The
claim says text extraction returns the absent value (`None`); the code
returns the stripped text `""`, which is an empty string, not `None`. -/
theorem claim9_counterexample :
    safe_get_text (some (el "x" [] (some "   ") [])) = some "" ∧
    safe_get_text (some (el "x" [] (some "   ") [])) ≠ none :=
  ⟨by decide, by decide⟩

/-- Claim C9 (amended): text extraction never raises; it returns `None` for
an absent element, an element with no text, or an element with empty text —
but for a whitespace-only text it returns the stripped empty string `""`
(falsy downstream, yet not the absent value); for any other text it returns
the text with surrounding whitespace trimmed. -/
theorem claim9_amended (oe : Option Element) :
    (safe_get_text oe = none ↔
      oe = none ∨ ∃ e, oe = some e ∧ (e.txt = none ∨ e.txt = some "")) ∧
    (∀ e t, oe = some e → e.txt = some t → t ≠ "" →
      safe_get_text oe = some (pyStrip t)) := by
  constructor
  · rcases oe with _ | e
    · simp [safe_get_text]
    · rcases ht : e.txt with _ | t
      · simp [safe_get_text, ht]
      · by_cases hte : t = ""
        · simp [safe_get_text, ht, hte]
        · simp [safe_get_text, ht, hte]
  · intro e t hoe ht hte
    rw [hoe]
    simp [safe_get_text, ht, hte]

/-- Witness for the amended claim C9. -/
theorem claim9_witness :
    safe_get_text (some (el "x" [] (some " hi ") [])) = some (pyStrip " hi ") :=
  (claim9_amended (some (el "x" [] (some " hi ") []))).2
    (el "x" [] (some " hi ") []) " hi " rfl rfl (by decide)

/-- Claim C10 (confirmed): in every package returned by a successful parse,
each fixity record's owning-file identifier equals the identifier of the file
whose fixity list contains it. -/
theorem claim10_fixity_ownership :
    ∀ (env : Env) (root : Element) (stem : String) (s : SIPModel) (ws : List String),
      parse_mets_to_sip root stem env = .ok (s, ws) →
      ∀ ie ∈ s.intellectual_entities, ∀ r ∈ ie.representations,
        ∀ f ∈ r.files, ∀ fx ∈ f.fixities, fx.file_id = f.file_id :=
  fun _ _ _ _ _ h ie hie r hr f hf fx hfx =>
    ((parse_ok_inv h).2.2 ie hie r hr).2.2 f hf fx hfx

/-- Witness for claim C10, at the concrete C2 parse. -/
theorem claim10_witness :
    ({ fixity_type := FixityType.SHA256, fixity_value := "deadbeef", file_id := "file-1" }
        : FixityModel).file_id = fileC2.file_id :=
  claim10_fixity_ownership env0 docC2 "f" sipC2 wsC2 rfl
    (sipC2.intellectual_entities.headD ⟨"", {}, "", []⟩) (by decide)
    repC2 (by decide) fileC2 (by decide)
    { fixity_type := FixityType.SHA256, fixity_value := "deadbeef", file_id := "file-1" }
    (by decide)
